import Mathlib

/-!
Verification development for the Depop scraping pipeline
(`src/depop_scraper.py`, `src/depop_scraper_lib.py`).

The definitions below are a shallow embedding of the pipeline's data model
and operations, translated from the Python/JavaScript source:

* `Row` is the ListingRow dict produced by the scraper.
* `mergeRow` is the enrichment-merge dict literal built in
  `deep_fetch_worker` (depop_scraper.py, lines 476-484) and
  `_deep_fetch_one` (depop_scraper_lib.py, lines 417-426).
* The detail-page extraction cascade (`extractDetail`) embeds
  `DETAIL_EXTRACT_JS` of depop_scraper.py (lines 206-375), one structure
  field per extraction layer; the site-specific DOM queries of each layer
  are external inputs, the cascade composition is the embedded logic.
* Card extraction (`cardRow`) embeds `EXTRACT_LIST_SCRIPT`
  (depop_scraper.py, lines 161-204).
* The scroll collector (`infiniteCollect`) embeds `infinite_collect`
  (depop_scraper.py, lines 418-451).
* The deep-fetch batch machinery (`strideBatches`, `deepFetchOne`,
  `libWorker`, `libDeepOutput`, `pyDeepItem`, `pyDeepOutput`) embeds the
  worker/batch logic of both files, with an environment
  `String → FetchOutcome` standing for the outcome of visiting each
  detail page.
* `scrapeDepopLib` embeds the control skeleton of `scrape_depop` /
  `_scrape_depop_async` in depop_scraper_lib.py, with the external
  failure points (import, browser discovery, launch, first navigation)
  as booleans of a `LibEnv`.
-/

namespace Depop

/-! ### Character-level string primitives

The JavaScript/Python string operations of the source (trim, whitespace
collapse, lower-casing, split, startsWith) are modelled over the
character list of a `String`, so that every definition evaluates inside
the kernel. -/

/-- Whether `needle` occurs at the start of `hay` (JS `startsWith`, the
CSS `^=` attribute selector). -/
def listStarts : List Char → List Char → Bool
  | [], _ => true
  | _ :: _, [] => false
  | n :: ns, h :: hs => n = h && listStarts ns hs

/-- Whether `needle` occurs as a contiguous run anywhere in `hay`. -/
def hasSub (needle : List Char) : List Char → Bool
  | [] => needle.isEmpty
  | c :: rest => listStarts needle (c :: rest) || hasSub needle rest

/-- Leading and trailing whitespace removed (JS `trim`, Python `strip`). -/
def trimChars (l : List Char) : List Char :=
  ((l.dropWhile Char.isWhitespace).reverse.dropWhile Char.isWhitespace).reverse

/-- `s.trim()` / `s.strip()`. -/
def jsTrim (s : String) : String := String.mk (trimChars s.data)

/-- The maximal whitespace-separated words of the text. -/
def wsWordsAux (acc : List Char) : List Char → List (List Char)
  | [] => if acc = [] then [] else [acc.reverse]
  | c :: rest =>
    if c.isWhitespace then
      if acc = [] then wsWordsAux [] rest
      else acc.reverse :: wsWordsAux [] rest
    else wsWordsAux (c :: acc) rest

def jsCleanChars : List (List Char) → List Char
  | [] => []
  | [w] => w
  | w :: ws => w ++ (' ' :: jsCleanChars ws)

/-- `clean` of `DETAIL_EXTRACT_JS`: collapse whitespace runs to a single
space, then trim. -/
def jsClean (s : String) : String := String.mk (jsCleanChars (wsWordsAux [] s.data))

/-- JS `toLowerCase` (over the basic alphabet the source compares). -/
def jsLower (s : String) : String := String.mk (s.data.map Char.toLower)

/-- JS `split(sep)` on a single separator character, keeping empties. -/
def splitOnCharAux (sep : Char) (acc : List Char) : List Char → List (List Char)
  | [] => [acc.reverse]
  | c :: rest =>
    if c = sep then acc.reverse :: splitOnCharAux sep [] rest
    else splitOnCharAux sep (c :: acc) rest

/-- One output listing row, as the Python dict with the seven fixed keys. -/
structure Row where
  platform : String
  brand : String
  item_name : String
  price : String
  size : String
  condition : String
  link : String
deriving Repr, DecidableEq

/-- The dict returned by the detail-page extraction script:
title/price/size/condition strings (no brand key exists). -/
structure Details where
  title : String
  price : String
  size : String
  condition : String
deriving Repr, DecidableEq

/-- `details = {}` after a caught per-item exception: every `.get` then
yields a falsy value, which the `or` merge treats as the empty string. -/
def emptyDetails : Details := ⟨"", "", "", ""⟩

/-- The merged row built in `deep_fetch_worker` (depop_scraper.py 476-484)
and `_deep_fetch_one` (depop_scraper_lib.py 417-426):
`details.get(k) or base.get(k, "")` for item_name/price/size/condition,
`base.get("brand","")` for brand, and the loop's `link` for link. -/
def mergeRow (base : Row) (d : Details) (link : String) : Row :=
  { platform := "Depop"
    brand := base.brand
    item_name := if d.title = "" then base.item_name else d.title
    price := if d.price = "" then base.price else d.price
    size := if d.size = "" then base.size else d.size
    condition := if d.condition = "" then base.condition else d.condition
    link := link }

/-! ## Card extraction (`EXTRACT_LIST_SCRIPT`, depop_scraper.py 161-204) -/

/-- Test of the JS regex `/[$£€]\s?\d|\d+(?:[.,]\d{2})/` on a character
list: somewhere in the text, either a currency symbol followed by an
optional single whitespace character and a digit, or a digit followed by
`.` or `,` and two digits (the shortest instance of `\d+[.,]\d{2}`). -/
def currencyTest : List Char → Bool
  | [] => false
  | [_] => false
  | c1 :: c2 :: rest =>
    (decide (c1 = '$' ∨ c1 = '£' ∨ c1 = '€') &&
      (c2.isDigit ||
        (c2.isWhitespace && (match rest with | d :: _ => d.isDigit | [] => false)))) ||
    (c1.isDigit && decide (c2 = '.' ∨ c2 = ',') &&
      (match rest with | d1 :: d2 :: _ => d1.isDigit && d2.isDigit | _ => false)) ||
    currencyTest (c2 :: rest)

/-- The price guess: the first `<p>` text matching the currency regex,
trimmed; `"N/A"` when no paragraph matches (the script's initializer). -/
def priceOf (ps : List String) : String :=
  match ps.find? (fun t => currencyTest t.data) with
  | some t => jsTrim t
  | none => "N/A"

/-- The brand guess: among the trimmed non-empty paragraph texts, the last
one that does not look like a price and has at most 40 characters;
`""` when none qualifies. -/
def brandOf (ps : List String) : String :=
  let texts := (ps.map jsTrim).filter (fun t => t ≠ "")
  (texts.reverse.find? (fun t => !currencyTest t.data && t.length ≤ 40)).getD ""

/-- The slug-derived title of the script: drop one trailing slash from
the href, take the last path segment, and turn hyphens into spaces. -/
def slugOf (href : String) : String :=
  let h := if href.data.getLast? = some '/' then href.data.dropLast else href.data
  let seg := (splitOnCharAux '/' [] h).getLastD []
  String.mk (seg.map (fun c => if c = '-' then ' ' else c))

/-- An anchor of the final results page: its `href` and, when the anchor
has an enclosing card (`closest('li') || parentElement` non-null), the
text contents of the card's `<p>` elements. -/
structure Anchor where
  href : String
  card : Option (List String)
deriving Repr, DecidableEq

/-- `document.querySelector` with the exact-href selector, falling back to
the href-prefix selector: the first matching anchor in document order. -/
def anchorFor (page : List Anchor) (href : String) : Option Anchor :=
  match page.find? (fun a => a.href = href) with
  | some a => some a
  | none => page.find? (fun a => listStarts href.data a.href.data)

def depopBase : String := "https://www.depop.com"

/-- The paragraph texts of the card found for `href` (empty when the
anchor or its enclosing card is missing). -/
def cardPs (page : List Anchor) (href : String) : List String :=
  match anchorFor page href with
  | some a => a.card.getD []
  | none => []

/-- One row of `EXTRACT_LIST_SCRIPT` for a collected `href`. -/
def cardRow (page : List Anchor) (href : String) : Row :=
  let ps := cardPs page href
  let price := priceOf ps
  let brand := brandOf ps
  let slug := slugOf href
  let itemName :=
    if brand ≠ "" && listStarts (jsLower brand).data (jsLower slug).data then
      jsTrim (String.mk (slug.data.drop brand.data.length))
    else slug
  { platform := "Depop"
    brand := brand
    item_name := itemName
    price := price
    size := ""
    condition := ""
    link := depopBase ++ href }

/-! ## Link collection and dedup -/

/-- First-occurrence deduplication against an already-seen set. -/
def dedupFirstAux (seen : List String) : List String → List String
  | [] => []
  | h :: t =>
    if h ∈ seen then dedupFirstAux seen t
    else h :: dedupFirstAux (h :: seen) t

/-- First-occurrence deduplication: the insertion order of the
`window.__depopSeen` set (depop_scraper.py `AUTOCOLLECT_SCRIPT`) and of
the `seen` set in depop_scraper_lib.py (lines 336-343). -/
def dedupFirst (l : List String) : List String := dedupFirstAux [] l

def productMark : String := "/products/"

/-- The candidate hrefs a collection round sees: the CSS selector
`a[href^="/products/"]` returns exactly the anchors whose href starts
with the product-path marker. -/
def roundHrefs (dom : List String) : List String :=
  dom.filter (fun h => listStarts productMark.data h.data)

/-- The cumulative distinct href list after the scroll rounds, in first
discovery order (insertion order of `window.__depopSeen`). -/
def autocollectSeen (rounds : List (List String)) : List String :=
  dedupFirst ((rounds.map roundHrefs).flatten)

/-- The shallow row list of the py pipeline: `EXTRACT_LIST_SCRIPT` mapped
over the collected hrefs in discovery order. -/
def pyShallowRows (page : List Anchor) (rounds : List (List String)) : List Row :=
  (autocollectSeen rounds).map (cardRow page)

/-- `isProductLink`, modelled from the spec's words (the repository
expresses the filter only through the `a[href^='/products/']` selector):
true iff the URL contains the product-page path segment marker. -/
def isProductLink (url : String) : Bool :=
  hasSub productMark.data url.data

/-! ## Detail-page extraction cascade (`DETAIL_EXTRACT_JS`, depop_scraper.py 206-375)

The site-specific DOM queries and JSON crawls of each layer are external
inputs, modelled as the fields of `DetailPage` (each field is what the
corresponding layer would yield, the empty string when it yields nothing
or its source is absent).  The embedded logic is the composition of the
layers, which is exactly what claim C4 is about. -/

/-- The per-layer outcomes for one detail page. -/
structure DetailPage where
  /-- `getText('h1') || getText('[data-testid="listing-title"]') || ...` -/
  domTitle : String
  /-- the `data.price` selector chain -/
  domPrice : String
  /-- `getSizeDOM()`: data-testid, selected chips, dt/dd pairs, tree walk -/
  domSize : String
  /-- `getConditionDOM()`: data-testid, dt/dd pairs, tree walk -/
  domCondition : String
  /-- `content` of `[itemprop="itemCondition"][content]`, before mapping -/
  metaCondRaw : String
  /-- key-alias crawl of the `__NEXT_DATA__` payload for the size keys -/
  nextDataSize : String
  /-- key-alias crawl of `__NEXT_DATA__` for the condition keys, raw -/
  nextDataCondRaw : String
  /-- first non-empty condition crawl over the ld+json blocks, raw -/
  ldCondRaw : String
  /-- first non-empty size crawl over the ld+json blocks -/
  ldSize : String
  /-- trimmed capture of the body-text size regex -/
  textSize : String
  /-- trimmed match of the granular condition-phrase regex on body text -/
  textGranular : String
deriving Repr, DecidableEq

/-- `prettySchemaCondition`: map a schema.org condition token (possibly a
URL, in which case its last path segment) to a human label, else return
the trimmed input. -/
def prettySchemaCondition (v : String) : String :=
  if v = "" then ""
  else
    let s := jsTrim v
    let slug := if listStarts "http".data s.data then
        String.mk ((splitOnCharAux '/' [] s.data).getLastD []) else s
    if slug = "NewCondition" then "Brand New"
    else if slug = "UsedCondition" then "Used"
    else if slug = "RefurbishedCondition" then "Refurbished"
    else if slug = "DamagedCondition" then "Damaged"
    else s

/-- The condition value before the body-text scan: DOM first, then the
itemprop meta tag, then `__NEXT_DATA__`, then the ld+json blocks. -/
def condCascade (pg : DetailPage) : String :=
  let c0 := pg.domCondition
  let c1 := if c0 = "" ∧ pg.metaCondRaw ≠ "" then prettySchemaCondition pg.metaCondRaw else c0
  let c2 := if c1 = "" ∧ pg.nextDataCondRaw ≠ "" then prettySchemaCondition pg.nextDataCondRaw else c1
  if c2 = "" ∧ pg.ldCondRaw ≠ "" then prettySchemaCondition pg.ldCondRaw else c2

/-- The size value before the final clean: DOM first, then
`__NEXT_DATA__`, then the ld+json blocks, then the body-text regex. -/
def sizeCascade (pg : DetailPage) : String :=
  let s0 := pg.domSize
  let s1 := if s0 = "" then pg.nextDataSize else s0
  let s2 := if s1 = "" then pg.ldSize else s1
  if s2 = "" then pg.textSize else s2

/-- The object returned by `DETAIL_EXTRACT_JS` (depop_scraper.py): the
DOM title and price, the size cascade, and the condition cascade where a
granular body-text phrase replaces an empty or plain-`used` value. -/
def extractDetail (pg : DetailPage) : Details :=
  let condition :=
    let c := condCascade pg
    if pg.textGranular ≠ "" ∧ (c = "" ∨ jsLower c = "used") then pg.textGranular else c
  { title := pg.domTitle
    price := pg.domPrice
    size := jsClean (sizeCascade pg)
    condition := jsClean condition }

/-- The cascade in the order the spec asserts (claim C4): page-state JSON
first, then linked-data and microdata, then the DOM term/definition
layer, then the body text, each later layer consulted only when every
earlier one yielded nothing.  Defined only to be compared with
`extractDetail`. -/
def extractDetailSpecOrder (pg : DetailPage) : Details :=
  let size :=
    if pg.nextDataSize ≠ "" then pg.nextDataSize
    else if pg.ldSize ≠ "" then pg.ldSize
    else if pg.domSize ≠ "" then pg.domSize
    else pg.textSize
  let condition :=
    if pg.nextDataCondRaw ≠ "" then prettySchemaCondition pg.nextDataCondRaw
    else if pg.ldCondRaw ≠ "" then prettySchemaCondition pg.ldCondRaw
    else if pg.metaCondRaw ≠ "" then prettySchemaCondition pg.metaCondRaw
    else if pg.domCondition ≠ "" then pg.domCondition
    else pg.textGranular
  { title := pg.domTitle
    price := pg.domPrice
    size := jsClean size
    condition := jsClean condition }

/-! ## Deep fetch: batches, workers, merge

Both files split the capped link list round-robin over the workers with
the slices `links[i::concurrency]` and run one worker per non-empty
slice.  The outcome of visiting one detail page is an external input,
modelled as `FetchOutcome`: success with an extraction result, an
evaluation error (caught in both files, `details = {}`), or a navigation
error (caught in depop_scraper.py's `deep_fetch_worker`, but raised in
depop_scraper_lib.py's `_deep_fetch_one`, whose `page.goto` is outside
the try). -/

/-- Take the head after skipping `n` elements, then continue with period
`c`. -/
def skipTake (c : Nat) : Nat → List α → List α
  | _, [] => []
  | 0, x :: xs => x :: skipTake c (c - 1) xs
  | n + 1, _ :: xs => skipTake c n xs

/-- The Python slice `ls[0::c]`: every `c`-th element. -/
def everyNth (c : Nat) (ls : List α) : List α := skipTake c 0 ls

/-- `[links[i::c] for i in range(c) if links[i::c]]` of both files. -/
def strideBatches (c : Nat) (links : List String) : List (List String) :=
  ((List.range c).map (fun i => everyNth c (links.drop i))).filter (fun b => b ≠ [])

/-- What happens when a worker visits one detail link. -/
inductive FetchOutcome where
  | ok (d : Details)
  | evalError
  | navError
deriving Repr, DecidableEq

/-- `by_link = {r["link"]: r for r in rows}` (depop_scraper_lib.py 400):
for each key, the last row bound wins; the lookup is total in the
pipeline because the fetched links are drawn from the keys (the default
is never reached there). -/
def byLinkLib (rows : List Row) (link : String) : Row :=
  (rows.reverse.find? (fun r => r.link = link)).getD
    { platform := "Depop", brand := "", item_name := "", price := ""
      size := "", condition := "", link := link }

/-- `by_link` of depop_scraper.py (lines 523-528): first row per link
wins; `by_link.get(link, {...})` falls back to an all-empty row
(deep_fetch_worker, lines 472-475). -/
def byLinkPy (rows : List Row) (link : String) : Row :=
  (rows.find? (fun r => r.link = link)).getD
    { platform := "Depop", brand := "", item_name := "", price := ""
      size := "", condition := "", link := link }

/-- `_deep_fetch_one` (depop_scraper_lib.py 405-426): `page.goto` is not
guarded, so a navigation error escapes; a failing `page.evaluate` is
caught and leaves `data = {}`. -/
def deepFetchOne (env : String → FetchOutcome) (base : String → Row)
    (link : String) : Except Unit Row :=
  match env link with
  | .navError => .error ()
  | .evalError => .ok (mergeRow (base link) emptyDetails link)
  | .ok d => .ok (mergeRow (base link) d link)

/-- `worker` (depop_scraper_lib.py 428-438): sequential over its batch;
an escaping exception from `_deep_fetch_one` aborts the worker and its
accumulated `out` list is lost. -/
def libWorker (env : String → FetchOutcome) (base : String → Row) :
    List String → Except Unit (List Row)
  | [] => .ok []
  | l :: ls =>
    match deepFetchOne env base l with
    | .error e => .error e
    | .ok r =>
      match libWorker env base ls with
      | .error e => .error e
      | .ok rs => .ok (r :: rs)

/-- `asyncio.gather(..., return_exceptions=True)` followed by the
`final_rows` loop (depop_scraper_lib.py 441-446): chunks that are
exceptions rather than lists are silently dropped. -/
def libDeepRows (env : String → FetchOutcome) (base : String → Row)
    (links : List String) (c : Nat) : List Row :=
  ((strideBatches c links).map (libWorker env base)).foldl
    (fun acc ch => match ch with | .ok l => acc ++ l | .error _ => acc) []

/-- The deep-fetch phase of `_scrape_depop_async` (depop_scraper_lib.py
392-449): dedup the row links, cap at `deep_max`, fan out. -/
def libDeepOutput (env : String → FetchOutcome) (rows : List Row)
    (deepMax c : Nat) : List Row :=
  let links := (dedupFirst (rows.map Row.link)).take deepMax
  libDeepRows env (byLinkLib rows) links c

/-- One item of `deep_fetch_worker` (depop_scraper.py 458-485): the whole
goto/evaluate block is inside the try, so both error kinds leave
`details = {}` and the merged row is still emitted. -/
def pyDeepItem (env : String → FetchOutcome) (base : String → Row)
    (link : String) : Row :=
  match env link with
  | .ok d => mergeRow (base link) d link
  | _ => mergeRow (base link) emptyDetails link

/-- The deep-fetch phase of `scrape_depop` (depop_scraper.py 522-541).
The workers append to the shared `results_out` as they complete, so the
real interleaving is a scheduler-dependent permutation of this per-batch
concatenation; claims about it are stated up to that caveat. -/
def pyDeepOutput (env : String → FetchOutcome) (rows : List Row)
    (deepMax c : Nat) : List Row :=
  let links := (dedupFirst (rows.map Row.link)).take deepMax
  ((strideBatches c links).map (fun b => b.map (pyDeepItem env (byLinkPy rows)))).flatten

/-! ## Scroll collector (`infinite_collect`, depop_scraper.py 418-451)

Per round `i` (1-based) infinite_collect evaluates the autocollect
script, breaks on the item cap, updates the stall counter past the
warmup, breaks on a stall, scrolls and pauses, waits for network
quiescence every `net_idle_every` rounds, and finally breaks when the
elapsed wall clock exceeds the duration budget.  The DOM is an external
input: `totals i` is the cumulative distinct count the script reports at
round `i`, `pause i` the jitter drawn that round, and `netIdle i` the
time the best-effort network-idle wait consumes.  `elapsed` counts the
modelled durations (pauses and network-idle waits). -/

structure ScrollLimits where
  maxRounds : Nat
  warmup : Nat
  idleRounds : Nat
  netIdleEvery : Nat
  maxItems : Nat
  maxDuration : Nat
deriving Repr, DecidableEq

structure ScrollEnv where
  totals : Nat → Nat
  pause : Nat → Nat
  netIdle : Nat → Nat

inductive StopReason where
  /-- `total >= max_items` -/
  | capped
  /-- `stable >= idle_rounds` past the warmup -/
  | stalled
  /-- `time.time() - start > max_duration_s` -/
  | timedOut
  /-- the `for` loop ran out of rounds -/
  | exhausted
deriving Repr, DecidableEq

structure CollectResult where
  /-- number of loop rounds that were entered -/
  rounds : Nat
  /-- modelled elapsed time at the break -/
  elapsed : Nat
  reason : StopReason
deriving Repr, DecidableEq

/-- The stall-counter update of round `i`:
`stable = stable + 1 if total == last_total else 0`, guarded by
`if i > warmup`. -/
def nextStable (L : ScrollLimits) (i total lastTotal stable : Nat) : Nat :=
  if L.warmup < i then (if total = lastTotal then stable + 1 else 0) else stable

/-- The modelled duration of round `i`: the scroll pause plus, every
`net_idle_every` rounds, the network-quiescence wait. -/
def roundCost (L : ScrollLimits) (E : ScrollEnv) (i : Nat) : Nat :=
  E.pause i + (if i % L.netIdleEvery = 0 then E.netIdle i else 0)

/-- The loop body of `infinite_collect`, with `fuel` rounds remaining and
round index `i`. -/
def collectAux (L : ScrollLimits) (E : ScrollEnv) :
    Nat → Nat → Nat → Nat → Nat → CollectResult
  | 0, i, _, _, elapsed => ⟨i - 1, elapsed, .exhausted⟩
  | fuel + 1, i, stable, lastTotal, elapsed =>
    if L.maxItems ≤ E.totals i then ⟨i, elapsed, .capped⟩
    else if L.warmup < i ∧ L.idleRounds ≤ nextStable L i (E.totals i) lastTotal stable then
      ⟨i, elapsed, .stalled⟩
    else if L.maxDuration < elapsed + roundCost L E i then
      ⟨i, elapsed + roundCost L E i, .timedOut⟩
    else collectAux L E fuel (i + 1) (nextStable L i (E.totals i) lastTotal stable)
      (E.totals i) (elapsed + roundCost L E i)

/-- `infinite_collect`: rounds run from 1 to `max_rounds`. -/
def infiniteCollect (L : ScrollLimits) (E : ScrollEnv) : CollectResult :=
  collectAux L E L.maxRounds 1 0 0 0

/-! ## Pipeline skeleton of depop_scraper_lib.py

`scrape_depop` (lines 79-97) falls back to a single sample row when the
automation library cannot be imported, and otherwise runs
`_scrape_depop_async` (lines 249-449), which again falls back to the
sample row when no browser binary is found or the launch raises.  The
initial `page.goto(base_url, ...)` (line 314) is not guarded, and the
card loop (lines 336-374) calls `slug.lower().startsWith(...)` on line
363 whenever the brand guess is non-empty — Python strings have no
`startsWith` method (only `startswith`), so that call raises an
`AttributeError`, which nothing catches. -/

/-- The UTF-8 bytes of a string, computed from the code points (urllib
operates on the encoded bytes). -/
def utf8Bytes (s : String) : List Nat :=
  s.data.flatMap (fun c =>
    let n := c.toNat
    if n < 0x80 then [n]
    else if n < 0x800 then [0xC0 + n / 0x40, 0x80 + n % 0x40]
    else if n < 0x10000 then
      [0xE0 + n / 0x1000, 0x80 + n / 0x40 % 0x40, 0x80 + n % 0x40]
    else
      [0xF0 + n / 0x40000, 0x80 + n / 0x1000 % 0x40,
       0x80 + n / 0x40 % 0x40, 0x80 + n % 0x40])

def hexDigit (n : Nat) : Char :=
  if n < 10 then Char.ofNat (48 + n) else Char.ofNat (55 + n)

/-- `urllib.parse.quote_plus`: keep the always-safe bytes, turn spaces
into `+`, percent-encode everything else with uppercase hex. -/
def quotePlus (s : String) : String :=
  String.mk ((utf8Bytes s).flatMap (fun b =>
    if (48 ≤ b ∧ b ≤ 57) ∨ (65 ≤ b ∧ b ≤ 90) ∨ (97 ≤ b ∧ b ≤ 122) ∨
        b = 95 ∨ b = 46 ∨ b = 45 ∨ b = 126 then [Char.ofNat b]
    else if b = 32 then ['+']
    else ['%', hexDigit (b / 16), hexDigit (b % 16)]))

/-- `base_url` of both files. -/
def searchUrl (term : String) : String :=
  "https://www.depop.com/search/?q=" ++ quotePlus term

/-- The synthetic placeholder row returned on import failure, missing
browsers, or launch failure (depop_scraper_lib.py 87-95, 263-271,
299-307); note its link is the search URL. -/
def sampleRow (term : String) : Row :=
  { platform := "Depop"
    brand := "Supreme"
    item_name := term ++ " (sample)"
    price := "$199"
    size := "L"
    condition := "Good condition"
    link := searchUrl term }

/-- One discovery event of the lib collection loop: the anchor's href and
the paragraph texts of its enclosing card (`none` when the closest-li
evaluation yields nothing). -/
structure LibEvent where
  href : String
  card : Option (List String)
deriving Repr, DecidableEq

/-- The card body of the lib loop (depop_scraper_lib.py 344-374): the
*last* paragraph containing a currency symbol is the price (the loop
keeps overwriting), the last short non-price paragraph the brand; when
the brand guess is non-empty the code then calls the non-existent
`str.startsWith` and raises `AttributeError`. -/
def libCardRow (e : LibEvent) : Except Unit Row :=
  let ps := e.card.getD []
  let price := ((ps.filter (fun t =>
    t.data.any (fun ch => ch = '$' ∨ ch = '£' ∨ ch = '€'))).getLast?.map jsTrim).getD ""
  let brand := ((ps.reverse.find? (fun t =>
    jsTrim t ≠ "" ∧ jsTrim t ≠ price ∧ (jsTrim t).length ≤ 40)).map jsTrim).getD ""
  if brand ≠ "" then .error ()
  else
    .ok { platform := "Depop"
          brand := brand
          item_name := slugOf e.href
          price := if price = "" then "N/A" else price
          size := ""
          condition := ""
          link := depopBase ++ e.href }

/-- The collection loop of `_scrape_depop_async` (lines 336-380): a seen
set over the discovery events (already filtered by the product selector),
rows capped at `max_items` (the cap is checked after each append), and
the `AttributeError` of `libCardRow` propagating out of the loop. -/
def libCollect (maxItems : Nat) :
    List LibEvent → List String → Nat → Except Unit (List Row)
  | [], _, _ => .ok []
  | e :: evs, seen, cnt =>
    if e.href ∈ seen then libCollect maxItems evs seen cnt
    else
      match libCardRow e with
      | .error u => .error u
      | .ok r =>
        if maxItems ≤ cnt + 1 then .ok [r]
        else
          match libCollect maxItems evs (e.href :: seen) (cnt + 1) with
          | .error u => .error u
          | .ok rs => .ok (r :: rs)

/-- The external failure points of `scrape_depop` / `_scrape_depop_async`
(depop_scraper_lib.py), plus the discovery events the run would see. -/
structure LibEnv where
  /-- `from playwright.async_api import async_playwright` succeeds -/
  importOk : Bool
  /-- some browser binary is found (chromium, or the firefox fallback) -/
  browserFound : Bool
  /-- `browser_type.launch(...)` succeeds -/
  launchOk : Bool
  /-- `page.goto(base_url, ...)` succeeds (line 314, unguarded) -/
  initialGotoOk : Bool
  /-- the discovery events of the collection loop -/
  events : List LibEvent
  /-- the outcome of each deep-fetch page visit -/
  fetch : String → FetchOutcome

inductive ScrapeErr where
  /-- the navigation timeout of the unguarded initial `page.goto` -/
  | navTimeout
  /-- the `AttributeError` of `slug.lower().startsWith(...)` -/
  | attrError
deriving Repr, DecidableEq

/-- The control skeleton of `scrape_depop` (depop_scraper_lib.py 79-97)
composed with `_scrape_depop_async` (lines 249-449): `.error` is an
exception reaching the caller of the entry point. -/
def scrapeDepopLib (env : LibEnv) (term : String) (deep : Bool)
    (maxItems deepMax c : Nat) : Except ScrapeErr (List Row) :=
  if ¬env.importOk then .ok [sampleRow term]
  else if ¬env.browserFound then .ok [sampleRow term]
  else if ¬env.launchOk then .ok [sampleRow term]
  else if ¬env.initialGotoOk then .error .navTimeout
  else
    match libCollect maxItems env.events [] 0 with
    | .error _ => .error .attrError
    | .ok rows =>
      if ¬deep ∨ rows = [] then .ok rows
      else .ok (libDeepOutput env.fetch rows deepMax c)

/-! ## Helper lemmas -/

lemma mem_dedupFirstAux {x : String} :
    ∀ (l seen : List String), x ∈ dedupFirstAux seen l ↔ (x ∈ l ∧ x ∉ seen) := by
  intro l
  induction l with
  | nil => intro seen; simp [dedupFirstAux]
  | cons h t ih =>
    intro seen
    rw [dedupFirstAux]
    by_cases hs : h ∈ seen
    · rw [if_pos hs, ih]
      constructor
      · rintro ⟨h1, h2⟩
        exact ⟨List.mem_cons_of_mem h h1, h2⟩
      · rintro ⟨h1, h2⟩
        rcases List.mem_cons.mp h1 with h3 | h3
        · subst h3; exact absurd hs h2
        · exact ⟨h3, h2⟩
    · rw [if_neg hs, List.mem_cons, ih]
      by_cases hx : x = h
      · subst hx
        simp [hs]
      · simp only [List.mem_cons, List.mem_cons]
        constructor
        · rintro (h1 | ⟨h1, h2⟩)
          · exact absurd h1 hx
          · refine ⟨Or.inr h1, ?_⟩
            intro hc
            exact h2 (Or.inr hc)
        · rintro ⟨h1 | h1, h2⟩
          · exact absurd h1 hx
          · refine Or.inr ⟨h1, ?_⟩
            rintro (h3 | h3)
            · exact hx h3
            · exact h2 h3

lemma mem_dedupFirst {x : String} {l : List String} :
    x ∈ dedupFirst l ↔ x ∈ l := by
  unfold dedupFirst
  rw [mem_dedupFirstAux]
  simp

lemma dedupFirstAux_nodup :
    ∀ (l seen : List String), (dedupFirstAux seen l).Nodup := by
  intro l
  induction l with
  | nil => intro seen; simp [dedupFirstAux]
  | cons h t ih =>
    intro seen
    rw [dedupFirstAux]
    by_cases hs : h ∈ seen
    · rw [if_pos hs]
      exact ih seen
    · rw [if_neg hs]
      refine List.nodup_cons.mpr ⟨?_, ih (h :: seen)⟩
      intro hmem
      have := (mem_dedupFirstAux _ _).mp hmem
      exact this.2 (List.mem_cons_self h seen)

lemma dedupFirst_nodup (l : List String) : (dedupFirst l).Nodup :=
  dedupFirstAux_nodup l []

lemma dedupFirstAux_sublist :
    ∀ (l seen : List String), (dedupFirstAux seen l).Sublist l := by
  intro l
  induction l with
  | nil => intro seen; simp [dedupFirstAux]
  | cons h t ih =>
    intro seen
    rw [dedupFirstAux]
    by_cases hs : h ∈ seen
    · rw [if_pos hs]
      exact (ih seen).cons h
    · rw [if_neg hs]
      exact (ih (h :: seen)).cons₂ h

lemma dedupFirst_sublist (l : List String) : (dedupFirst l).Sublist l :=
  dedupFirstAux_sublist l []

lemma dedupFirstAux_drop_dup {x : String} :
    ∀ (xs : List String) (seen ys : List String), x ∈ xs ∨ x ∈ seen →
      dedupFirstAux seen (xs ++ x :: ys) = dedupFirstAux seen (xs ++ ys) := by
  intro xs
  induction xs with
  | nil =>
    intro seen ys hx
    rcases hx with hx | hx
    · simp at hx
    · simp only [List.nil_append]
      rw [dedupFirstAux, if_pos hx]
  | cons h t ih =>
    intro seen ys hx
    simp only [List.cons_append]
    rw [dedupFirstAux, dedupFirstAux]
    by_cases hs : h ∈ seen
    · rw [if_pos hs, if_pos hs]
      refine ih seen ys ?_
      rcases hx with hx | hx
      · rcases List.mem_cons.mp hx with h1 | h1
        · subst h1; exact Or.inr hs
        · exact Or.inl h1
      · exact Or.inr hx
    · rw [if_neg hs, if_neg hs]
      refine congrArg (h :: ·) (ih (h :: seen) ys ?_)
      rcases hx with hx | hx
      · rcases List.mem_cons.mp hx with h1 | h1
        · subst h1; exact Or.inr (List.mem_cons_self x _)
        · exact Or.inl h1
      · exact Or.inr (List.mem_cons_of_mem h hx)

/-- A later re-discovery of an href that is already in the stream changes
nothing: it is dropped, not overwritten. -/
lemma dedupFirst_drop_dup {x : String} (xs ys : List String) (hx : x ∈ xs) :
    dedupFirst (xs ++ x :: ys) = dedupFirst (xs ++ ys) :=
  dedupFirstAux_drop_dup xs [] ys (Or.inl hx)

lemma string_append_left_cancel {s t u : String} (h : s ++ t = s ++ u) : t = u := by
  apply String.ext
  have := congrArg String.data h
  rw [String.data_append, String.data_append] at this
  exact List.append_cancel_left this

lemma find?_first {α : Type} (p : α → Bool) (a : α) :
    ∀ (pre suf : List α), (∀ b ∈ pre, p b = false) → p a = true →
      (pre ++ a :: suf).find? p = some a := by
  intro pre
  induction pre with
  | nil => intro suf _ ha; simp [List.find?_cons, ha]
  | cons b pre ih =>
    intro suf hpre ha
    have hb : p b = false := hpre b (List.mem_cons_self b pre)
    simp only [List.cons_append, List.find?_cons, hb]
    exact ih suf (fun c hc => hpre c (List.mem_cons_of_mem b hc)) ha

lemma skipTake_drop {α : Type} (c : Nat) :
    ∀ (xs : List α) (n : Nat), skipTake c n xs = skipTake c 0 (xs.drop n) := by
  intro xs
  induction xs with
  | nil => intro n; simp [skipTake]
  | cons y t ih =>
    intro n
    cases n with
    | zero => rfl
    | succ n =>
      rw [skipTake]
      rw [ih n]
      rfl

lemma everyNth_nil {α : Type} (c : Nat) : everyNth c ([] : List α) = [] := rfl

lemma everyNth_cons {α : Type} (c : Nat) (x : α) (xs : List α) :
    everyNth c (x :: xs) = x :: everyNth c (xs.drop (c - 1)) := by
  unfold everyNth
  rw [skipTake, skipTake_drop]

lemma mem_everyNth {α : Type} {x : α} (c : Nat) (l : List α)
    (hx : x ∈ everyNth c l) : x ∈ l := by
  revert hx
  suffices H : ∀ n (l : List α), l.length ≤ n → x ∈ everyNth c l → x ∈ l from
    H l.length l le_rfl
  intro n
  induction n with
  | zero =>
    intro l hl
    rw [List.length_eq_zero.mp (Nat.le_zero.mp hl)]
    simp [everyNth_nil]
  | succ n ih =>
    intro l hl
    cases l with
    | nil => simp [everyNth_nil]
    | cons h t =>
      rw [everyNth_cons]
      intro hx
      rcases List.mem_cons.mp hx with h1 | h1
      · simp [h1]
      · have hle : (t.drop (c - 1)).length ≤ n := by
          simp only [List.length_drop, List.length_cons] at *
          omega
        exact List.mem_cons_of_mem h (List.drop_subset _ _ (ih _ hle h1))

/-- Concatenating the round-robin slices `ls[i::c]` for `i < c` yields a
permutation of `ls`. -/
lemma flatten_slices_perm {α : Type} (k : Nat) :
    ∀ (ls : List α),
      (((List.range (k + 1)).map (fun i => everyNth (k + 1) (ls.drop i))).flatten).Perm ls := by
  intro ls
  induction ls with
  | nil => simp [everyNth_nil]
  | cons a ls ih =>
    rw [List.range_succ_eq_map]
    simp only [List.map_cons, List.map_map, List.flatten_cons, List.drop_zero]
    rw [everyNth_cons]
    have hdrop : ∀ i : Nat, (a :: ls).drop (Nat.succ i) = ls.drop i := by
      intro i; rfl
    have hmap :
        (List.map ((fun i => everyNth (k + 1) ((a :: ls).drop i)) ∘ Nat.succ) (List.range k))
          = List.map (fun i => everyNth (k + 1) (ls.drop i)) (List.range k) := by
      apply List.map_congr_left
      intro i _
      simp [Function.comp, hdrop]
    rw [hmap]
    simp only [Nat.add_sub_cancel, List.cons_append]
    refine List.Perm.cons a ?_
    have hsplit := ih
    rw [List.range_succ, List.map_append, List.flatten_append] at hsplit
    simp only [List.map_cons, List.map_nil, List.flatten_cons, List.flatten_nil,
      List.append_nil] at hsplit
    exact List.Perm.trans List.perm_append_comm hsplit

lemma flatten_filter_ne_nil :
    ∀ (L : List (List String)), (L.filter (fun b => b ≠ [])).flatten = L.flatten := by
  intro L
  induction L with
  | nil => rfl
  | cons b L ih =>
    by_cases hb : b = []
    · subst hb; simpa using ih
    · simp only [List.filter_cons]
      rw [if_pos (by simp [hb])]
      simp only [List.flatten_cons]
      congr 1

lemma strideBatches_flatten_perm (c : Nat) (hc : 1 ≤ c)
    (ls : List String) : ((strideBatches c ls).flatten).Perm ls := by
  obtain ⟨k, rfl⟩ : ∃ k, c = k + 1 := ⟨c - 1, by omega⟩
  rw [strideBatches, flatten_filter_ne_nil]
  exact flatten_slices_perm k ls

/-- A successful merge of one item, shared between the two files: the
extraction result when the visit succeeds, `{}` on a caught failure. -/
def libItem (env : String → FetchOutcome) (base : String → Row)
    (link : String) : Row :=
  match env link with
  | .ok d => mergeRow (base link) d link
  | _ => mergeRow (base link) emptyDetails link

lemma pyDeepItem_eq_libItem (env : String → FetchOutcome) (base : String → Row)
    (link : String) : pyDeepItem env base link = libItem env base link := by
  unfold pyDeepItem libItem
  cases env link <;> rfl

lemma libWorker_ok_of_no_nav (env : String → FetchOutcome) (base : String → Row)
    (hnav : ∀ l, env l ≠ .navError) :
    ∀ b : List String, libWorker env base b = .ok (b.map (libItem env base)) := by
  intro b
  induction b with
  | nil => rfl
  | cons l ls ih =>
    have h1 : deepFetchOne env base l = .ok (libItem env base l) := by
      unfold deepFetchOne libItem
      cases he : env l with
      | ok d => rfl
      | evalError => rfl
      | navError => exact absurd he (hnav l)
    rw [libWorker, h1, ih]
    rfl

lemma libDeepRows_of_no_nav (env : String → FetchOutcome) (base : String → Row)
    (links : List String) (c : Nat) (hnav : ∀ l, env l ≠ .navError) :
    libDeepRows env base links c
      = ((strideBatches c links).flatten).map (libItem env base) := by
  unfold libDeepRows
  have hmap : (strideBatches c links).map (libWorker env base)
      = (strideBatches c links).map (fun b => .ok (b.map (libItem env base))) := by
    apply List.map_congr_left
    intro b _
    exact libWorker_ok_of_no_nav env base hnav b
  rw [hmap]
  generalize strideBatches c links = bs
  induction bs using List.reverseRecOn with
  | nil => rfl
  | append_singleton bs b ih =>
    simp only [List.map_append, List.map_cons, List.map_nil, List.foldl_append,
      List.foldl_cons, List.foldl_nil, List.flatten_append, List.flatten_cons,
      List.flatten_nil, List.append_nil, ih]

lemma libItem_link (env : String → FetchOutcome) (base : String → Row)
    (link : String) : (libItem env base link).link = link := by
  unfold libItem
  cases env link <;> rfl

lemma map_link_libDeepRows (env : String → FetchOutcome) (base : String → Row)
    (links : List String) (c : Nat) (hnav : ∀ l, env l ≠ .navError) :
    (libDeepRows env base links c).map Row.link = (strideBatches c links).flatten := by
  rw [libDeepRows_of_no_nav env base links c hnav, List.map_map]
  have : (Row.link ∘ libItem env base) = id := by
    funext l
    simp [Function.comp, libItem_link]
  rw [this, List.map_id]

lemma listStarts_of_isPrefixOf : ∀ (n l : List Char), n.isPrefixOf l = true →
    listStarts n l = true := by
  intro n
  induction n with
  | nil => intro l _; rfl
  | cons a n ih =>
    intro l h
    cases l with
    | nil => simp [List.isPrefixOf] at h
    | cons b l =>
      simp only [List.isPrefixOf, Bool.and_eq_true] at h
      have hab : a = b := by
        have := h.1
        simpa using this
      simp [listStarts, hab, ih l h.2]

lemma hasSub_of_starts (n : List Char) :
    ∀ (l : List Char), listStarts n l = true → hasSub n l = true := by
  intro l hs
  cases l with
  | nil =>
    cases n with
    | nil => rfl
    | cons a m => simp [listStarts] at hs
  | cons c rest => simp [hasSub, hs]

lemma hasSub_append (n : List Char) :
    ∀ (pre l : List Char), hasSub n l = true → hasSub n (pre ++ l) = true := by
  intro pre
  induction pre with
  | nil => intro l h; simpa using h
  | cons c cs ih =>
    intro l h
    simp only [List.cons_append, hasSub, Bool.or_eq_true]
    exact Or.inr (ih l h)

lemma isProductLink_of_href (href : String)
    (h : listStarts productMark.data href.data = true) :
    isProductLink (depopBase ++ href) = true := by
  unfold isProductLink
  rw [String.data_append]
  exact hasSub_append _ _ _ (hasSub_of_starts _ _ h)


/-! ### Collector lemmas -/

lemma collectAux_rounds_le (L : ScrollLimits) (E : ScrollEnv) :
    ∀ (fuel i stable lt el : Nat), 1 ≤ i →
      (collectAux L E fuel i stable lt el).rounds + 1 ≤ i + fuel := by
  intro fuel
  induction fuel with
  | zero =>
    intro i stable lt el hi
    simp only [collectAux]
    omega
  | succ fuel ih =>
    intro i stable lt el hi
    simp only [collectAux]
    split
    · simp
    · split
      · simp
      · split
        · simp
        · have := ih (i + 1) (nextStable L i (E.totals i) lt stable) (E.totals i)
            (el + roundCost L E i) (by omega)
          omega

lemma collectAux_stalled_gt_warmup (L : ScrollLimits) (E : ScrollEnv) :
    ∀ (fuel i stable lt el : Nat),
      (collectAux L E fuel i stable lt el).reason = .stalled →
      L.warmup < (collectAux L E fuel i stable lt el).rounds := by
  intro fuel
  induction fuel with
  | zero =>
    intro i stable lt el h
    simp only [collectAux] at h
    exact absurd h (by simp)
  | succ fuel ih =>
    intro i stable lt el
    simp only [collectAux]
    split
    · intro h
      exact absurd h (by simp)
    · split
      · next hcond =>
        intro _
        simpa using hcond.1
      · split
        · intro h
          exact absurd h (by simp)
        · exact ih (i + 1) _ _ _

lemma collectAux_elapsed_le (L : ScrollLimits) (E : ScrollEnv)
    (pMax nMax : Nat) (hp : ∀ j, E.pause j ≤ pMax) (hn : ∀ j, E.netIdle j ≤ nMax) :
    ∀ (fuel i stable lt el : Nat), el ≤ L.maxDuration →
      (collectAux L E fuel i stable lt el).elapsed ≤ L.maxDuration + pMax + nMax := by
  intro fuel
  induction fuel with
  | zero =>
    intro i stable lt el hel
    simp only [collectAux]
    omega
  | succ fuel ih =>
    intro i stable lt el hel
    have hstep : roundCost L E i ≤ pMax + nMax := by
      have h1 := hp i
      have h2 := hn i
      unfold roundCost
      split <;> omega
    simp only [collectAux]
    split
    · simp
      omega
    · split
      · simp
        omega
      · split
        · simp
          omega
        · exact ih (i + 1) _ _ _ (by omega)

lemma collectAux_no_early_cap (L : ScrollLimits) (E : ScrollEnv) :
    ∀ (fuel i stable lt el : Nat),
      (∀ j, 1 ≤ j → j < i → E.totals j < L.maxItems) →
      ∀ j, 1 ≤ j → j < (collectAux L E fuel i stable lt el).rounds →
        E.totals j < L.maxItems := by
  intro fuel
  induction fuel with
  | zero =>
    intro i stable lt el hpast j hj1 hj2
    simp only [collectAux] at hj2
    exact hpast j hj1 (by omega)
  | succ fuel ih =>
    intro i stable lt el hpast
    simp only [collectAux]
    split
    · intro j hj1 hj2
      simp only [] at hj2
      exact hpast j hj1 hj2
    · next hcap =>
      split
      · intro j hj1 hj2
        simp only [] at hj2
        exact hpast j hj1 hj2
      · split
        · intro j hj1 hj2
          simp only [] at hj2
          exact hpast j hj1 hj2
        · refine ih (i + 1) _ _ _ ?_
          intro j hj1 hj2
          by_cases hji : j = i
          · subst hji
            omega
          · exact hpast j hj1 (by omega)

lemma collectAux_capped_total (L : ScrollLimits) (E : ScrollEnv) :
    ∀ (fuel i stable lt el : Nat),
      (collectAux L E fuel i stable lt el).reason = .capped →
      L.maxItems ≤ E.totals (collectAux L E fuel i stable lt el).rounds := by
  intro fuel
  induction fuel with
  | zero =>
    intro i stable lt el h
    simp only [collectAux] at h ⊢
    exact absurd h (by simp)
  | succ fuel ih =>
    intro i stable lt el
    simp only [collectAux]
    split
    · next hcap =>
      intro _
      simpa using hcap
    · split
      · intro h
        exact absurd h (by simp)
      · split
        · intro h
          exact absurd h (by simp)
        · exact ih (i + 1) _ _ _

/-- Past warmup and past the stabilisation point, the stall counter grows
every round, so the loop breaks within `idleRounds - stable` rounds. -/
lemma collectAux_tail (L : ScrollLimits) (E : ScrollEnv) (K : Nat)
    (hK : ∀ j, K ≤ j → E.totals j = E.totals K) :
    ∀ (fuel i stable el : Nat), K + 1 ≤ i → L.warmup + 1 ≤ i →
      stable < L.idleRounds →
      (collectAux L E fuel i stable (E.totals K) el).rounds + 1
        ≤ i + (L.idleRounds - stable) := by
  intro fuel
  induction fuel with
  | zero =>
    intro i stable el hKi hw hs
    simp only [collectAux]
    omega
  | succ fuel ih =>
    intro i stable el hKi hw hs
    have htot : E.totals i = E.totals K := hK i (by omega)
    have hstable : nextStable L i (E.totals i) (E.totals K) stable = stable + 1 := by
      unfold nextStable
      rw [if_pos (by omega), if_pos htot]
    simp only [collectAux, hstable]
    split
    · simp
      omega
    · split
      · simp
        omega
      · next hnocap hnostall =>
        have hs1 : stable + 1 < L.idleRounds := by
          rcases Decidable.em (L.idleRounds ≤ stable + 1) with h1 | h1
          · exact absurd ⟨by omega, h1⟩ hnostall
          · omega
        split
        · simp
          omega
        · have := ih (i + 1) (stable + 1) (el + roundCost L E i)
            (by omega) (by omega) hs1
          rw [htot]
          omega

/-- From the start of the loop up to the stabilisation point, carrying the
invariant that `last_total` is the previous round's total. -/
lemma collectAux_head (L : ScrollLimits) (E : ScrollEnv) (K : Nat)
    (hK : ∀ j, K ≤ j → E.totals j = E.totals K) (hK1 : 1 ≤ K)
    (hidle : 1 ≤ L.idleRounds) :
    ∀ (fuel i stable lt el : Nat), 1 ≤ i → i ≤ max K L.warmup + 1 →
      stable < L.idleRounds → (2 ≤ i → lt = E.totals (i - 1)) →
      (collectAux L E fuel i stable lt el).rounds
        ≤ max K L.warmup + L.idleRounds := by
  intro fuel
  induction fuel with
  | zero =>
    intro i stable lt el hi hiB hs hlt
    simp only [collectAux]
    omega
  | succ fuel ih =>
    intro i stable lt el hi hiB hs hlt
    simp only [collectAux]
    split
    · simp
      omega
    · split
      · simp
        omega
      · next hnocap hnostall =>
        have hs' : nextStable L i (E.totals i) lt stable < L.idleRounds := by
          rcases Decidable.em (L.warmup < i) with hw | hw
          · rcases Decidable.em (L.idleRounds ≤ nextStable L i (E.totals i) lt stable)
                with h1 | h1
            · exact absurd ⟨hw, h1⟩ hnostall
            · omega
          · unfold nextStable
            rw [if_neg hw]
            exact hs
        split
        · simp
          omega
        · rcases Decidable.em (i ≤ max K L.warmup) with hlast | hlast
          · exact ih (i + 1) _ (E.totals i) _ (by omega) (by omega) hs'
              (by intro _; simp)
          · -- i = max K warmup + 1: switch to the tail lemma
            have htoti : E.totals i = E.totals K := hK i (by omega)
            have hge2 : 2 ≤ i := by omega
            have hlt' : lt = E.totals (i - 1) := hlt hge2
            have htotprev : E.totals (i - 1) = E.totals K := hK (i - 1) (by omega)
            have hbump : nextStable L i (E.totals i) lt stable = stable + 1 := by
              unfold nextStable
              rw [if_pos (by omega), if_pos (by rw [htoti, hlt', htotprev])]
            rw [hbump] at hs'
            have htail := collectAux_tail L E K hK fuel (i + 1)
              (stable + 1) (el + roundCost L E i)
              (by omega) (by omega) hs'
            rw [hbump, htoti]
            omega

/-! ## Claim theorems -/

/-! ### C2: enrichment merge policy -/

def c2Base : Row :=
  { platform := "Depop", brand := "Nike", item_name := "hoodie", price := "$10"
    size := "L", condition := "Used", link := "https://www.depop.com/products/a" }

def c2Enrich : Details := { title := "", price := "$9", size := "M", condition := "" }

/-- Claim C2, counterexample: the claim says a non-empty shallow size is
never overwritten by the enrichment result, but the merge computes
`details.get("size") or base.get("size")`, so an enriched size "M"
replaces the non-empty shallow size "L". -/
theorem c2_counterexample :
    c2Base.size = "L" ∧ c2Base.size ≠ "" ∧
    (mergeRow c2Base c2Enrich c2Base.link).size = "M" ∧
    (mergeRow c2Base c2Enrich c2Base.link).size ≠ c2Base.size := by
  refine ⟨rfl, by decide, rfl, by decide⟩

/-- Claim C2 (amended): for every base row and enrichment result, each of
title, price, size and condition is replaced by a non-empty enriched
value and kept when the enriched value is empty; brand always keeps the
shallow value (the extraction script returns no brand).  In the pipeline
the distinction for size and condition is unobservable, because every
shallow row carries empty size and condition. -/
theorem c2_merge_policy (base : Row) (d : Details) (link : String)
    (page : List Anchor) (href : String) :
    (d.title ≠ "" → (mergeRow base d link).item_name = d.title) ∧
    (d.title = "" → (mergeRow base d link).item_name = base.item_name) ∧
    (d.price ≠ "" → (mergeRow base d link).price = d.price) ∧
    (d.price = "" → (mergeRow base d link).price = base.price) ∧
    (d.size ≠ "" → (mergeRow base d link).size = d.size) ∧
    (d.size = "" → (mergeRow base d link).size = base.size) ∧
    (d.condition ≠ "" → (mergeRow base d link).condition = d.condition) ∧
    (d.condition = "" → (mergeRow base d link).condition = base.condition) ∧
    (mergeRow base d link).brand = base.brand ∧
    (cardRow page href).size = "" ∧
    (cardRow page href).condition = "" := by
  refine ⟨?_, ?_, ?_, ?_, ?_, ?_, ?_, ?_, rfl, rfl, rfl⟩ <;>
    first
      | (intro h; simp [mergeRow, h])

/-- Witness for C2: the non-empty enriched price "$9" replaces the
non-empty shallow price "$10". -/
theorem c2_merge_policy_witness :
    (mergeRow c2Base c2Enrich "https://www.depop.com/products/a").price = "$9" :=
  (c2_merge_policy c2Base c2Enrich "https://www.depop.com/products/a" [] "").2.2.1
    (by decide)

/-! ### C9: price field shape -/

def c9Page : List Anchor := [{ href := "/products/x", card := some ["hello there"] }]

/-- Claim C9, counterexample: for a card with no price-looking text the
shallow price is the literal "N/A", not the empty string, and it starts
with no currency symbol. -/
theorem c9_counterexample :
    (cardRow c9Page "/products/x").price = "N/A" ∧
    (cardRow c9Page "/products/x").price ≠ "" ∧
    ¬(listStarts "$".data (cardRow c9Page "/products/x").price.data = true ∨
      listStarts "£".data (cardRow c9Page "/products/x").price.data = true ∨
      listStarts "€".data (cardRow c9Page "/products/x").price.data = true) := by
  refine ⟨rfl, by decide, by decide⟩

/-- Claim C9 (amended): the shallow price is the literal "N/A" when no
card paragraph matches the currency pattern, and otherwise the trimmed
raw text of the first matching paragraph; it is not normalised to a
symbol-amount form, and the unrecoverable case is "N/A", never "". -/
theorem c9_price_shape (page : List Anchor) (href : String) :
    ((cardRow page href).price = "N/A" ∧
      (cardPs page href).find? (fun t => currencyTest t.data) = none) ∨
    (∃ t, (cardPs page href).find? (fun t => currencyTest t.data) = some t ∧
      t ∈ cardPs page href ∧ currencyTest t.data = true ∧
      (cardRow page href).price = jsTrim t) := by
  cases hf : (cardPs page href).find? (fun t => currencyTest t.data) with
  | none =>
    left
    exact ⟨by simp [cardRow, priceOf, hf], rfl⟩
  | some t =>
    right
    refine ⟨t, rfl, List.mem_of_find?_eq_some hf, ?_, by simp [cardRow, priceOf, hf]⟩
    have hp := List.find?_some hf
    simpa using hp

/-! ### C4: detail extraction cascade order -/

def c4PageJson : DetailPage :=
  { domTitle := "T", domPrice := "$1", domSize := "L", domCondition := ""
    metaCondRaw := "", nextDataSize := "M", nextDataCondRaw := "", ldCondRaw := ""
    ldSize := "", textSize := "", textGranular := "" }

def c4PageUsed : DetailPage :=
  { domTitle := "T", domPrice := "$1", domSize := "", domCondition := "Used"
    metaCondRaw := "", nextDataSize := "", nextDataCondRaw := "", ldCondRaw := ""
    ldSize := "", textSize := "", textGranular := "very good condition" }

/-- Claim C4, counterexample: on a page where the DOM term/definition
layer yields size "L" and the page-state JSON yields size "M", the code
returns the DOM value, while the claimed JSON-first order would return
"M"; and on a page whose DOM condition is "Used" with a granular phrase
in the body text, the last (text) layer overrides the non-empty earlier
value. -/
theorem c4_counterexample :
    (extractDetail c4PageJson).size = "L" ∧
    (extractDetailSpecOrder c4PageJson).size = "M" ∧
    extractDetail c4PageJson ≠ extractDetailSpecOrder c4PageJson ∧
    c4PageUsed.domCondition = "Used" ∧
    (extractDetail c4PageUsed).condition = "very good condition" := by
  refine ⟨rfl, rfl, by decide, rfl, rfl⟩

/-- Claim C4 (amended): the cascade consults the DOM selector and
term/definition layer first, then the page-state JSON, then the
linked-data blocks, then the body-text regex, each later layer only when
every earlier one yielded nothing; additionally the granular
condition-phrase scan of the body text runs last and replaces an empty
or plain-"used" condition even though an earlier layer produced it. -/
theorem c4_cascade_order (pg : DetailPage) :
    (pg.domSize ≠ "" → (extractDetail pg).size = jsClean pg.domSize) ∧
    (pg.domSize = "" → pg.nextDataSize ≠ "" →
      (extractDetail pg).size = jsClean pg.nextDataSize) ∧
    (pg.domSize = "" → pg.nextDataSize = "" → pg.ldSize ≠ "" →
      (extractDetail pg).size = jsClean pg.ldSize) ∧
    (pg.domSize = "" → pg.nextDataSize = "" → pg.ldSize = "" →
      (extractDetail pg).size = jsClean pg.textSize) ∧
    (pg.textGranular = "" →
      (extractDetail pg).condition = jsClean (condCascade pg)) ∧
    (pg.textGranular ≠ "" → condCascade pg = "" →
      (extractDetail pg).condition = jsClean pg.textGranular) ∧
    (pg.textGranular ≠ "" → jsLower (condCascade pg) = "used" →
      (extractDetail pg).condition = jsClean pg.textGranular) ∧
    (pg.textGranular ≠ "" → condCascade pg ≠ "" → jsLower (condCascade pg) ≠ "used" →
      (extractDetail pg).condition = jsClean (condCascade pg)) ∧
    (pg.domCondition ≠ "" → condCascade pg = pg.domCondition) ∧
    (pg.domCondition = "" → prettySchemaCondition pg.metaCondRaw ≠ "" →
      condCascade pg = prettySchemaCondition pg.metaCondRaw) ∧
    (pg.domCondition = "" → prettySchemaCondition pg.metaCondRaw = "" →
      prettySchemaCondition pg.nextDataCondRaw ≠ "" →
      condCascade pg = prettySchemaCondition pg.nextDataCondRaw) ∧
    (pg.domCondition = "" → prettySchemaCondition pg.metaCondRaw = "" →
      prettySchemaCondition pg.nextDataCondRaw = "" → pg.ldCondRaw ≠ "" →
      condCascade pg = prettySchemaCondition pg.ldCondRaw) := by
  have hpretty : ∀ v : String, v = "" → prettySchemaCondition v = "" := by
    intro v hv
    rw [hv]
    rfl
  have hne : ∀ v : String, prettySchemaCondition v ≠ "" → v ≠ "" := by
    intro v hv he
    exact hv (hpretty v he)
  refine ⟨?_, ?_, ?_, ?_, ?_, ?_, ?_, ?_, ?_, ?_, ?_, ?_⟩
  · intro h
    simp [extractDetail, sizeCascade, h]
  · intro h1 h2
    simp [extractDetail, sizeCascade, h1, h2]
  · intro h1 h2 h3
    simp [extractDetail, sizeCascade, h1, h2, h3]
  · intro h1 h2 h3
    simp [extractDetail, sizeCascade, h1, h2, h3]
  · intro h
    simp [extractDetail, h]
  · intro h1 h2
    simp [extractDetail, h1, h2]
  · intro h1 h2
    by_cases h3 : condCascade pg = ""
    · simp [extractDetail, h1, h3]
    · simp [extractDetail, h1, h2, h3]
  · intro h1 h2 h3
    simp [extractDetail, h1, h2, h3]
  · intro h
    simp [condCascade, h]
  · intro h1 h2
    have hm : pg.metaCondRaw ≠ "" := hne _ h2
    simp [condCascade, h1, hm, h2]
  · intro h1 h2 h3
    have hn2 : pg.nextDataCondRaw ≠ "" := hne _ h3
    by_cases hm : pg.metaCondRaw = ""
    · simp [condCascade, h1, hm, hn2, h2, h3]
    · simp [condCascade, h1, hm, hn2, h2, h3]
  · intro h1 h2 h3 h4
    by_cases hm : pg.metaCondRaw = "" <;>
      by_cases hn2 : pg.nextDataCondRaw = "" <;>
        simp [condCascade, h1, hm, hn2, h2, h3, h4]

/-- Witness for C4: at `c4PageJson` the DOM layer's size "L" wins. -/
theorem c4_cascade_order_witness :
    (extractDetail c4PageJson).size = jsClean c4PageJson.domSize :=
  (c4_cascade_order c4PageJson).1 (by decide)

/-! ### Shared pipeline lemmas for the remaining claims -/

lemma pyShallowRows_map_link (page : List Anchor) (rounds : List (List String)) :
    (pyShallowRows page rounds).map Row.link
      = (autocollectSeen rounds).map (fun h => depopBase ++ h) := by
  unfold pyShallowRows
  rw [List.map_map]
  apply List.map_congr_left
  intro h _
  rfl

lemma depopBase_append_inj :
    Function.Injective (fun h : String => depopBase ++ h) := by
  intro a b h
  exact string_append_left_cancel h

lemma mem_of_mem_strideBatches {b : List String} {x : String} {c : Nat}
    {links : List String} (hb : b ∈ strideBatches c links) (hx : x ∈ b) :
    x ∈ links := by
  unfold strideBatches at hb
  have hb' := (List.filter_sublist _).subset hb
  obtain ⟨i, _, rfl⟩ := List.mem_map.mp hb'
  exact List.drop_subset _ _ (mem_everyNth c _ hx)

lemma pyDeepItem_link (env : String → FetchOutcome) (base : String → Row)
    (link : String) : (pyDeepItem env base link).link = link := by
  rw [pyDeepItem_eq_libItem, libItem_link]

/-! ### C1: per-item failure isolation in the deep fetch -/

def c1Link1 : String := "https://www.depop.com/products/a"

def c1Link2 : String := "https://www.depop.com/products/b"

def c1Link3 : String := "https://www.depop.com/products/c"

def c1Rows : List Row :=
  [ { platform := "Depop", brand := "A", item_name := "a", price := "$1"
      size := "", condition := "", link := c1Link1 }
  , { platform := "Depop", brand := "B", item_name := "b", price := "$2"
      size := "", condition := "", link := c1Link2 }
  , { platform := "Depop", brand := "C", item_name := "c", price := "$3"
      size := "", condition := "", link := c1Link3 } ]

def c1Good : Details := { title := "T", price := "$9", size := "M", condition := "Used" }

/-- Navigation to the third link times out; the other visits succeed. -/
def c1Env : String → FetchOutcome := fun l =>
  if l = c1Link3 then .navError else .ok c1Good

/-- Claim C1 (code bug): with links a,b,c at concurrency 2 and a
navigation timeout on c, depop_scraper_lib.py loses rows a *and* c (the
unguarded `page.goto` in `_deep_fetch_one` aborts the worker holding the
batch [a, c], and the gather result that is not a list is discarded),
while `deep_fetch_worker` of depop_scraper.py — whose try wraps the goto
— keeps every row, enriches a and b, and leaves exactly c at its shallow
values, as the claim states. -/
theorem c1_nav_error_drops_batch :
    (libDeepOutput c1Env c1Rows 3 2).map Row.link = [c1Link2] ∧
    c1Link1 ∉ (libDeepOutput c1Env c1Rows 3 2).map Row.link ∧
    (pyDeepOutput c1Env c1Rows 3 2).length = 3 ∧
    c1Link1 ∈ (pyDeepOutput c1Env c1Rows 3 2).map Row.link ∧
    c1Link2 ∈ (pyDeepOutput c1Env c1Rows 3 2).map Row.link ∧
    c1Link3 ∈ (pyDeepOutput c1Env c1Rows 3 2).map Row.link ∧
    (pyDeepOutput c1Env c1Rows 3 2).filter (fun r => r.link = c1Link3)
      = [{ platform := "Depop", brand := "C", item_name := "c", price := "$3"
           size := "", condition := "", link := c1Link3 }] ∧
    (pyDeepOutput c1Env c1Rows 3 2).filter (fun r => r.link = c1Link1)
      = [{ platform := "Depop", brand := "A", item_name := "T", price := "$9"
           size := "M", condition := "Used", link := c1Link1 }] := by
  refine ⟨rfl, by decide, rfl, by decide, by decide, by decide, rfl, rfl⟩

/-! ### C3: the deep-fetch cap drops rows beyond it -/

def c3LinkA : String := "https://www.depop.com/products/a"

def c3LinkB : String := "https://www.depop.com/products/b"

def c3Rows : List Row :=
  [ { platform := "Depop", brand := "A", item_name := "a", price := "$1"
      size := "", condition := "", link := c3LinkA }
  , { platform := "Depop", brand := "B", item_name := "b", price := "$2"
      size := "", condition := "", link := c3LinkB } ]

def c3Env : String → FetchOutcome := fun _ => .ok c1Good

/-- Claim C3, counterexample: with two distinct shallow rows and
deepFetchMax = 1, both implementations return only the first (fetched)
row; the second row is dropped from the output instead of remaining with
its shallow values. -/
theorem c3_counterexample :
    (libDeepOutput c3Env c3Rows 1 1).map Row.link = [c3LinkA] ∧
    (pyDeepOutput c3Env c3Rows 1 1).map Row.link = [c3LinkA] ∧
    c3LinkB ∈ c3Rows.map Row.link ∧
    c3LinkB ∉ (libDeepOutput c3Env c3Rows 1 1).map Row.link := by
  refine ⟨rfl, rfl, by decide, by decide⟩

/-- Claim C3 (amended): deep mode fetches at most the first deepFetchMax
distinct links (earliest-discovered first) and merges each fetched row by
its link, but its output consists of exactly those fetched rows — when no
navigation error escapes, the output links are a permutation of the first
min(deepFetchMax, n) distinct shallow links, and rows beyond the cap are
dropped rather than kept shallow. -/
theorem c3_deep_cap (env : String → FetchOutcome) (rows : List Row)
    (dm c : Nat) (hc : 1 ≤ c) (hnav : ∀ l, env l ≠ .navError) :
    ((libDeepOutput env rows dm c).map Row.link).Perm
      ((dedupFirst (rows.map Row.link)).take dm) ∧
    (∀ r ∈ libDeepOutput env rows dm c,
      r = libItem env (byLinkLib rows) r.link) := by
  constructor
  · unfold libDeepOutput
    rw [map_link_libDeepRows _ _ _ _ hnav]
    exact strideBatches_flatten_perm c hc _
  · intro r hr
    unfold libDeepOutput at hr
    rw [libDeepRows_of_no_nav _ _ _ _ hnav] at hr
    obtain ⟨l, hl, rfl⟩ := List.mem_map.mp hr
    rw [libItem_link]

/-- Witness for C3: at the concrete two-row input with cap 1 the output
links are a permutation of the first distinct link. -/
theorem c3_deep_cap_witness :
    ((libDeepOutput c3Env c3Rows 1 1).map Row.link).Perm
      ((dedupFirst (c3Rows.map Row.link)).take 1) :=
  (c3_deep_cap c3Env c3Rows 1 1 (by decide)
    (fun l => by simp [c3Env])).1

/-! ### C6: output ordering -/

def c6Env : String → FetchOutcome := fun _ => .ok c1Good

def c6Rows : List Row :=
  [ { platform := "Depop", brand := "A", item_name := "a", price := "$1"
      size := "", condition := "", link := "https://www.depop.com/products/a" }
  , { platform := "Depop", brand := "B", item_name := "b", price := "$2"
      size := "", condition := "", link := "https://www.depop.com/products/b" }
  , { platform := "Depop", brand := "C", item_name := "c", price := "$3"
      size := "", condition := "", link := "https://www.depop.com/products/c" } ]

/-- Claim C6, counterexample: with three rows and concurrency 2, the lib
deep fetch deterministically returns links in the round-robin stride
order a, c, b — not discovery order a, b, c (and in depop_scraper.py the
shared results list is filled in scheduler-dependent completion order). -/
theorem c6_counterexample :
    c6Rows.map Row.link
      = ["https://www.depop.com/products/a", "https://www.depop.com/products/b",
         "https://www.depop.com/products/c"] ∧
    (libDeepOutput c6Env c6Rows 3 2).map Row.link
      = ["https://www.depop.com/products/a", "https://www.depop.com/products/c",
         "https://www.depop.com/products/b"] ∧
    (libDeepOutput c6Env c6Rows 3 2).map Row.link ≠ c6Rows.map Row.link := by
  refine ⟨rfl, rfl, by decide⟩

/-- Claim C6 (amended): shallow output preserves discovery order — the
collected href list keeps first occurrences in stream order (a sublist of
the discovery stream) and rows are emitted in that order; deep mode
however emits the concatenation of the per-worker round-robin slices of
the capped link list, a reordering of discovery order. -/
theorem c6_row_order (page : List Anchor) (rounds : List (List String))
    (env : String → FetchOutcome) (rows : List Row) (dm c : Nat)
    (hnav : ∀ l, env l ≠ .navError) :
    (pyShallowRows page rounds).map Row.link
      = (autocollectSeen rounds).map (fun h => depopBase ++ h) ∧
    (autocollectSeen rounds).Sublist ((rounds.map roundHrefs).flatten) ∧
    (libDeepOutput env rows dm c).map Row.link
      = (strideBatches c ((dedupFirst (rows.map Row.link)).take dm)).flatten := by
  refine ⟨pyShallowRows_map_link page rounds, dedupFirst_sublist _, ?_⟩
  unfold libDeepOutput
  exact map_link_libDeepRows _ _ _ _ hnav

/-- Witness for C6: the stride-order equation at the concrete three-row
input. -/
theorem c6_row_order_witness :
    (libDeepOutput c6Env c6Rows 3 2).map Row.link
      = (strideBatches 2 ((dedupFirst (c6Rows.map Row.link)).take 3)).flatten :=
  (c6_row_order [] [] c6Env c6Rows 3 2 (fun l => by simp [c6Env])).2.2

/-! ### C7: product-link invariant -/

def c7Env : LibEnv :=
  { importOk := false, browserFound := true, launchOk := true
    initialGotoOk := true, events := [], fetch := fun _ => .evalError }

/-- Claim C7, counterexample: on the degraded (engine-unavailable) path
the pipeline returns the placeholder row, whose link is the search URL —
it fails the product-link test, and no final-output safety filter removes
it. -/
theorem c7_counterexample :
    scrapeDepopLib c7Env "x" false 10 10 1 = .ok [sampleRow "x"] ∧
    (sampleRow "x").link = "https://www.depop.com/search/?q=x" ∧
    isProductLink (sampleRow "x").link = false := by
  refine ⟨rfl, rfl, by decide⟩

/-- Claim C7 (amended): on the normal path every output row's link
contains the product-path marker, in shallow mode and in deep mode,
because collection itself selects anchors by the href-prefix selector;
but the discard happens only once, at collection — there is no second
final-output filter, and the engine-unavailable placeholder row carries a
search URL that fails the test. -/
theorem c7_product_links (page : List Anchor) (rounds : List (List String))
    (env : String → FetchOutcome) (dm c : Nat) :
    (∀ r ∈ pyShallowRows page rounds, isProductLink r.link = true) ∧
    (∀ r ∈ pyDeepOutput env (pyShallowRows page rounds) dm c,
      isProductLink r.link = true) := by
  have hseen : ∀ h ∈ autocollectSeen rounds,
      listStarts productMark.data h.data = true := by
    intro h hmem
    unfold autocollectSeen at hmem
    have h1 : h ∈ (rounds.map roundHrefs).flatten := mem_dedupFirst.mp hmem
    obtain ⟨dom, hdom, hh⟩ := List.mem_flatten.mp h1
    obtain ⟨d0, _, rfl⟩ := List.mem_map.mp hdom
    exact (List.mem_filter.mp hh).2
  have hshallow : ∀ r ∈ pyShallowRows page rounds, isProductLink r.link = true := by
    intro r hr
    obtain ⟨h, hmem, rfl⟩ := List.mem_map.mp hr
    exact isProductLink_of_href h (hseen h hmem)
  refine ⟨hshallow, ?_⟩
  intro r hr
  unfold pyDeepOutput at hr
  obtain ⟨b', hb', hrb⟩ := List.mem_flatten.mp hr
  obtain ⟨b, hb, rfl⟩ := List.mem_map.mp hb'
  obtain ⟨l, hl, rfl⟩ := List.mem_map.mp hrb
  have hlinks : l ∈ (dedupFirst ((pyShallowRows page rounds).map Row.link)).take dm :=
    mem_of_mem_strideBatches hb hl
  have hl2 : l ∈ (pyShallowRows page rounds).map Row.link :=
    mem_dedupFirst.mp (List.take_subset _ _ hlinks)
  obtain ⟨r0, hr0, hr0l⟩ := List.mem_map.mp hl2
  rw [pyDeepItem_link, ← hr0l]
  exact hshallow r0 hr0

/-- Witness for C7: a one-round discovery of one product href yields a
row whose link passes the product test. -/
theorem c7_product_links_witness :
    isProductLink (cardRow [] "/products/a").link = true :=
  (c7_product_links [] [["/products/a"]] (fun _ => .evalError) 1 1).1
    (cardRow [] "/products/a") (by decide)

/-! ### C8: error propagation of the scrape entry point -/

def c8EnvNav : LibEnv :=
  { importOk := true, browserFound := true, launchOk := true
    initialGotoOk := false, events := [], fetch := fun _ => .evalError }

def c8EnvBrand : LibEnv :=
  { importOk := true, browserFound := true, launchOk := true
    initialGotoOk := true
    events := [{ href := "/products/a-b", card := some ["Nike"] }]
    fetch := fun _ => .evalError }

def c8EnvImp : LibEnv :=
  { importOk := false, browserFound := false, launchOk := false
    initialGotoOk := false, events := [], fetch := fun _ => .evalError }

/-- Claim C8, counterexample: the entry point does propagate unhandled
exceptions — a navigation timeout on the initial search-page load (the
unguarded `page.goto` on line 314) escapes, and so does the
`AttributeError` from `slug.lower().startsWith(...)` (line 363, a method
that does not exist on Python strings), raised as soon as a card yields a
non-empty brand guess. -/
theorem c8_counterexample :
    scrapeDepopLib c8EnvNav "x" false 10 10 1 = .error .navTimeout ∧
    scrapeDepopLib c8EnvBrand "x" false 10 10 1 = .error .attrError := by
  refine ⟨rfl, rfl⟩

/-- Claim C8 (amended): engine-unavailable failures (import failure,
no browser binary, launch failure) do degrade to exactly one synthetic
placeholder row, and a per-item evaluation error in the deep fetch is
swallowed, leaving the row shallow; but a navigation failure on the
initial search-page load, and the AttributeError raised during card
extraction whenever the brand guess is non-empty, propagate to the
caller as unhandled exceptions. -/
theorem c8_degraded_paths (env : LibEnv) (term : String) (deep : Bool)
    (mi dm c : Nat) (fenv : String → FetchOutcome) (base : String → Row)
    (l : String) :
    (env.importOk = false →
      scrapeDepopLib env term deep mi dm c = .ok [sampleRow term]) ∧
    (env.importOk = true → env.browserFound = false →
      scrapeDepopLib env term deep mi dm c = .ok [sampleRow term]) ∧
    (env.importOk = true → env.browserFound = true → env.launchOk = false →
      scrapeDepopLib env term deep mi dm c = .ok [sampleRow term]) ∧
    (env.importOk = true → env.browserFound = true → env.launchOk = true →
      env.initialGotoOk = false →
      scrapeDepopLib env term deep mi dm c = .error .navTimeout) ∧
    (fenv l = .evalError →
      deepFetchOne fenv base l = .ok (mergeRow (base l) emptyDetails l)) := by
  refine ⟨?_, ?_, ?_, ?_, ?_⟩
  · intro h1
    simp [scrapeDepopLib, h1]
  · intro h1 h2
    simp [scrapeDepopLib, h1, h2]
  · intro h1 h2 h3
    simp [scrapeDepopLib, h1, h2, h3]
  · intro h1 h2 h3 h4
    simp [scrapeDepopLib, h1, h2, h3, h4]
  · intro h
    simp [deepFetchOne, h]

/-- Witness for C8: with the import failing, the run returns exactly the
placeholder row. -/
theorem c8_degraded_paths_witness :
    scrapeDepopLib c8EnvImp "y" true 5 5 2 = .ok [sampleRow "y"] :=
  (c8_degraded_paths c8EnvImp "y" true 5 5 2 (fun _ => .evalError)
    (fun _ => sampleRow "y") "").1 rfl

/-! ### C10: link uniqueness and first-seen-wins -/

/-- Claim C10 (confirmed): output links are pairwise distinct; a later
re-discovery of an already-seen href changes nothing (dropped, never
overwritten); the card looked up for an href is the first matching
anchor in document order; and in deep mode the `by_link` base lookup of
depop_scraper.py returns the first row bearing the link. -/
theorem c10_first_seen_wins (page : List Anchor) (rounds : List (List String)) :
    ((pyShallowRows page rounds).map Row.link).Nodup ∧
    (∀ (xs ys : List String) (x : String), x ∈ xs →
      dedupFirst (xs ++ x :: ys) = dedupFirst (xs ++ ys)) ∧
    (∀ (pre suf : List Anchor) (a : Anchor) (h : String),
      a.href = h → (∀ b ∈ pre, b.href ≠ h) →
      anchorFor (pre ++ a :: suf) h = some a) ∧
    (∀ (rpre rsuf : List Row) (r : Row) (l : String),
      r.link = l → (∀ x ∈ rpre, x.link ≠ l) →
      byLinkPy (rpre ++ r :: rsuf) l = r) := by
  refine ⟨?_, ?_, ?_, ?_⟩
  · rw [pyShallowRows_map_link]
    exact (dedupFirst_nodup _).map depopBase_append_inj
  · intro xs ys x hx
    exact dedupFirst_drop_dup xs ys hx
  · intro pre suf a h ha hpre
    have hfind : (pre ++ a :: suf).find? (fun b => b.href = h) = some a := by
      refine find?_first _ a pre suf ?_ (by simp [ha])
      intro b hb
      simp [hpre b hb]
    unfold anchorFor
    rw [hfind]
  · intro rpre rsuf r l hr hpre
    have hfind : (rpre ++ r :: rsuf).find? (fun x => x.link = l) = some r := by
      refine find?_first _ r rpre rsuf ?_ (by simp [hr])
      intro x hx
      simp [hpre x hx]
    unfold byLinkPy
    rw [hfind]
    rfl

/-- Witness for C10: re-discovering `/products/a` later in the stream
leaves the collected list unchanged. -/
theorem c10_first_seen_wins_witness :
    dedupFirst (["/products/a"] ++ "/products/a" :: ["/products/b"])
      = dedupFirst (["/products/a"] ++ ["/products/b"]) :=
  (c10_first_seen_wins [] []).2.1 ["/products/a"] ["/products/b"] "/products/a"
    (by decide)

/-! ### C5: collector termination -/

def c5L : ScrollLimits :=
  { maxRounds := 5, warmup := 10, idleRounds := 3, netIdleEvery := 1
    maxItems := 100, maxDuration := 0 }

def c5E : ScrollEnv :=
  { totals := fun i => i, pause := fun _ => 5, netIdle := fun _ => 100 }

/-- Claim C5, counterexample: with every scroll pause equal to 5 and a
network-idle wait of 100 on round 1 (netIdleEvery = 1), the loop ends
with elapsed 105 against a duration budget of 0 — an overrun of one
scroll-pause interval plus the network-idle wait, exceeding the claimed
bound of one scroll-pause interval. -/
theorem c5_counterexample :
    infiniteCollect c5L c5E = ⟨1, 105, .timedOut⟩ ∧
    c5E.pause = (fun _ => 5) ∧
    c5L.maxDuration + 5 < (infiniteCollect c5L c5E).elapsed := by
  refine ⟨rfl, rfl, by decide⟩

/-- Claim C5 (amended): when the distinct candidate count is constant
from round K on (1 ≤ K), the collector (a) never runs more than
MAX_ROUNDS rounds, (b) stalls only after the warmup, (c) terminates by
round max(K, WARMUP_ROUNDS) + IDLE_ROUNDS, (d) overruns MAX_DURATION_S
by at most one scroll-pause interval *plus one network-idle timeout*
(the wait of a network-idle round also elapses before the duration
check), (e) never continues past a round whose total reached MAX_ITEMS,
and (f) a capped stop happens at a round whose total is at least
MAX_ITEMS. -/
theorem c5_collector_termination (L : ScrollLimits) (E : ScrollEnv)
    (K pMax nMax : Nat) (hK1 : 1 ≤ K)
    (hconst : ∀ j, K ≤ j → E.totals j = E.totals K)
    (hidle : 1 ≤ L.idleRounds)
    (hp : ∀ j, E.pause j ≤ pMax) (hn : ∀ j, E.netIdle j ≤ nMax) :
    (infiniteCollect L E).rounds ≤ L.maxRounds ∧
    ((infiniteCollect L E).reason = .stalled →
      L.warmup < (infiniteCollect L E).rounds) ∧
    (infiniteCollect L E).rounds ≤ max K L.warmup + L.idleRounds ∧
    (infiniteCollect L E).elapsed ≤ L.maxDuration + pMax + nMax ∧
    (∀ i, 1 ≤ i → i < (infiniteCollect L E).rounds →
      E.totals i < L.maxItems) ∧
    ((infiniteCollect L E).reason = .capped →
      L.maxItems ≤ E.totals (infiniteCollect L E).rounds) := by
  refine ⟨?_, ?_, ?_, ?_, ?_, ?_⟩
  · have := collectAux_rounds_le L E L.maxRounds 1 0 0 0 (le_refl 1)
    unfold infiniteCollect
    omega
  · exact collectAux_stalled_gt_warmup L E L.maxRounds 1 0 0 0
  · refine collectAux_head L E K hconst hK1 hidle L.maxRounds 1 0 0 0
      (le_refl 1) (by omega) (by omega) ?_
    intro h2
    exact absurd h2 (by omega)
  · exact collectAux_elapsed_le L E pMax nMax hp hn L.maxRounds 1 0 0 0
      (Nat.zero_le _)
  · refine collectAux_no_early_cap L E L.maxRounds 1 0 0 0 ?_
    intro j hj1 hj2
    omega
  · exact collectAux_capped_total L E L.maxRounds 1 0 0 0

def c5wL : ScrollLimits :=
  { maxRounds := 50, warmup := 2, idleRounds := 3, netIdleEvery := 10
    maxItems := 100, maxDuration := 1000 }

def c5wE : ScrollEnv :=
  { totals := fun _ => 7, pause := fun _ => 1, netIdle := fun _ => 2 }

/-- Witness for C5: a source that is constant from round 1 stalls within
max(1, 2) + 3 = 5 rounds under the concrete limits. -/
theorem c5_collector_termination_witness :
    (infiniteCollect c5wL c5wE).rounds ≤ max 1 c5wL.warmup + c5wL.idleRounds ∧
    (infiniteCollect c5wL c5wE).elapsed ≤ c5wL.maxDuration + 1 + 2 :=
  ⟨(c5_collector_termination c5wL c5wE 1 1 2 (le_refl 1)
      (fun j _ => rfl) (by decide) (fun j => le_refl 1) (fun j => le_refl 2)).2.2.1,
   (c5_collector_termination c5wL c5wE 1 1 2 (le_refl 1)
      (fun j _ => rfl) (by decide) (fun j => le_refl 1) (fun j => le_refl 2)).2.2.2.1⟩

end Depop
